import Mathlib

/-!
# Verification of the expense-capture / dual-ledger posting engine

Shallow embedding of the finance-agent repository (currency_service.py,
accounting_service.py, sheets_service.py, invoice_ai_service.py,
telegram_bot.py).  Python strings are modelled as `List Char`, Python
floats as `ℚ` (exact rational semantics), Python dicts as structures of
`Option`-valued fields, and raising code as `Except PyErr`.
-/

namespace FinanceAgent

/-- Convert a Lean string literal to the `List Char` representation used
throughout the embedding. -/
def toCL (s : String) : List Char := s.toList

/-! ## Characters and digits -/

/-- ASCII decimal-digit test (`'0' ≤ c ≤ '9'`). -/
def isDigitC (c : Char) : Bool := 48 ≤ c.toNat && c.toNat ≤ 57

/-- Numeric value of a digit character. -/
def digToNat (c : Char) : ℕ := c.toNat - 48

/-- The digit character for `d < 10`. -/
def digitChar (d : ℕ) : Char := Char.ofNat (48 + d)

/-- Little-endian decimal digits of `n`, with explicit fuel so that the
definition is structurally recursive (and kernel-reducible). -/
def natDigitsAux : ℕ → ℕ → List Char
  | 0, _ => []
  | fuel + 1, n => if n = 0 then [] else digitChar (n % 10) :: natDigitsAux fuel (n / 10)

/-- Little-endian decimal digits of `n` (`['0']` for zero). -/
def natDigitsLE (n : ℕ) : List Char :=
  if n = 0 then ['0'] else natDigitsAux n n

/-- Value of a little-endian digit list. -/
def valLE : List Char → ℕ
  | [] => 0
  | c :: cs => digToNat c + 10 * valLE cs

/-- Value of a big-endian (most-significant-first) digit list. -/
def digitsVal (l : List Char) : ℕ := l.foldl (fun a c => 10 * a + digToNat c) 0

/-! ## Python string operations -/

/-- Source `s.replace(c, '')` on `List Char`. -/
def removeAll (c : Char) (l : List Char) : List Char := l.filter (· ≠ c)

/-- Source `s.replace(a, b)` for single characters on `List Char`. -/
def replaceAll (a b : Char) (l : List Char) : List Char :=
  l.map (fun c => if c = a then b else c)

/-! ## Kernel-reducible rational arithmetic

The rational operations inherited from Batteries (`Rat.add`, `Rat.sub`,
`Rat.mul`, `Rat.inv`) are `@[irreducible]`, which blocks `decide`/`rfl`
evaluation on concrete inputs.  The embedding therefore uses the
following wrappers, each proved equal to the standard operation
(`qAdd_eq` etc. below), so abstract reasoning can switch to ordinary
`+`, `-`, `*`, `|·|` at will. -/

/-- Negation on `ℚ`, via `mkRat`. -/
def qNeg (a : ℚ) : ℚ := mkRat (-a.num) a.den

/-- Addition on `ℚ`, via `mkRat`. -/
def qAdd (a b : ℚ) : ℚ := mkRat (a.num * b.den + b.num * a.den) (a.den * b.den)

/-- Subtraction on `ℚ`, via `mkRat`. -/
def qSub (a b : ℚ) : ℚ := qAdd a (qNeg b)

/-- Multiplication on `ℚ`, via `mkRat`. -/
def qMul (a b : ℚ) : ℚ := mkRat (a.num * b.num) (a.den * b.den)

/-- Absolute value on `ℚ`, via `mkRat`. -/
def qAbs (a : ℚ) : ℚ := mkRat a.num.natAbs a.den

/-! ## Python `float()` on decimal literals

Model of `float(s)` restricted to the decimal-literal forms that arise in
this repository (optional sign, integer digits, optional single decimal
point): `"123"`, `"1.5"`, `".5"`, `"1."`, `"-3"`.  Exotic inputs
(exponents, `inf`, `nan`, underscores, surrounding whitespace) are outside
the model; every string this code ever builds or cleans falls inside it. -/

/-- Unsigned decimal-literal parse: digits with at most one `'.'`. -/
def pyFloatPos (l : List Char) : Option ℚ :=
  let ip := l.takeWhile isDigitC
  let rest := l.dropWhile isDigitC
  match rest with
  | [] => if ip.isEmpty then none else some (digitsVal ip : ℚ)
  | '.' :: fr =>
    if fr.all isDigitC && (!ip.isEmpty || !fr.isEmpty) then
      some (qAdd (digitsVal ip : ℚ) (mkRat (digitsVal fr) (10 ^ fr.length)))
    else none
  | _ => none

/-- Source `float(s)`: optional sign then an unsigned decimal literal; `none`
models `ValueError`. -/
def pyFloat (l : List Char) : Option ℚ :=
  match l with
  | '-' :: r => (pyFloatPos r).map qNeg
  | '+' :: r => pyFloatPos r
  | _ => pyFloatPos l

/-! ## Python values and errors -/

/-- Python exceptions relevant to this code base. -/
inductive PyErr where
  | typeError
  | valueError
  | keyError
  | apiError
  deriving DecidableEq, Repr

/-- Dynamically-typed Python values as they occur in the records this
code passes around (`other` stands for any non-string, non-numeric,
non-`None` value such as a list or dict). -/
inductive PyValue where
  | str : List Char → PyValue
  | int : ℤ → PyValue
  | float : ℚ → PyValue
  | none : PyValue
  | other : PyValue
  deriving DecidableEq, Repr

/-- Source `str(v)` for the values that ever reach it in this code base:
strings pass through, `None` prints as `"None"`, and non-string
non-numeric containers print as a bracketed form that never parses as a
float.  (`int`/`float` never reach `str()` here: every call site guards
with `isinstance(x, (int, float))` first, so their rendering is a
placeholder.) -/
def pyStr : PyValue → List Char
  | .str s => s
  | .none => toCL "None"
  | .int _ => toCL "<int>"
  | .float _ => toCL "<float>"
  | .other => toCL "<object>"

/-! ## Rounding for Python's `format(x, ',.0f')` / `',.2f'`

Python's fixed-precision formatting rounds half-to-even.  `floorQ` and
`roundHalfEven` give that semantics on the rational model of floats. -/

/-- Floor of a rational, computably. -/
def floorQ (q : ℚ) : ℤ := q.num.fdiv (q.den : ℤ)

/-- Round to the nearest integer, ties to even (Python's formatting
rounding mode). -/
def roundHalfEven (q : ℚ) : ℤ :=
  let f := floorQ q
  let r := qSub q (f : ℚ)
  if r < mkRat 1 2 then f
  else if mkRat 1 2 < r then f + 1
  else if f % 2 = 0 then f else f + 1

/-- Thousands grouping as performed by Python's `','` format option,
acting on a little-endian digit list: a `','` after every third digit
that is followed by more digits. -/
def groupLE : List Char → List Char
  | a :: b :: c :: d :: rest => a :: b :: c :: ',' :: groupLE (d :: rest)
  | l => l

/-- Source `f"{n:,.0f}"` for an integer value `n`: optional minus sign, then the
comma-grouped decimal digits. -/
def pyFormatComma0f (n : ℤ) : List Char :=
  (if n < 0 then ['-'] else []) ++ (groupLE (natDigitsLE n.natAbs)).reverse

/-- Two-digit zero-padded rendering of `k < 100`. -/
def pad2 (k : ℕ) : List Char := [digitChar (k / 10), digitChar (k % 10)]

/-! ## `currency_service.py` — class `CurrencyService` -/

namespace Currency

/-- The directional exchange-rate pair held by `CurrencyService`
(`self.usd_to_cop_rate`, `self.cop_to_usd_rate`). -/
structure Rates where
  usd_to_cop_rate : ℚ
  cop_to_usd_rate : ℚ
  deriving DecidableEq, Repr

/-- The built-in default rates set in `__init__`. -/
def defaultRates : Rates := ⟨4300, mkRat 1 4300⟩

/-- Source `CurrencyService.load_exchange_rates`.  The environment is the
outcome of the remote fetch: `none` models a failed `get_service()` or a
raised API call, `some values` the `result.get('values', [])` cell grid
(each cell a string).  Returns the post-state and the boolean result.

The source updates the two fields sequentially inside a
`try/except (ValueError, IndexError)`:

    self.usd_to_cop_rate = float(values[0][0])
    self.cop_to_usd_rate = float(values[1][0])

so a failure on the second line leaves the first assignment in place. -/
def load_exchange_rates (st : Rates) (fetch : Option (List (List (List Char)))) :
    Rates × Bool :=
  match fetch with
  | .none => (st, false)
  | .some values =>
    if values.isEmpty || values.length < 2 then (st, false)
    else
      match values with
      | row0 :: row1 :: _ =>
        match row0.head? with
        | .none => (st, false)              -- IndexError on values[0][0]
        | .some cell0 =>
          match pyFloat cell0 with
          | .none => (st, false)            -- ValueError on the first float()
          | .some r1 =>
            -- first assignment has happened
            match row1.head? with
            | .none => ({ st with usd_to_cop_rate := r1 }, false)   -- IndexError
            | .some cell1 =>
              match pyFloat cell1 with
              | .none => ({ st with usd_to_cop_rate := r1 }, false) -- ValueError
              | .some r2 => (⟨r1, r2⟩, true)
      | _ => (st, false)

/-- Source `CurrencyService.convert_usd_to_cop`. -/
def convert_usd_to_cop (st : Rates) (amount_usd : ℚ) : ℚ :=
  qMul amount_usd st.usd_to_cop_rate

/-- Source `CurrencyService.convert_cop_to_usd`. -/
def convert_cop_to_usd (st : Rates) (amount_cop : ℚ) : ℚ :=
  qMul amount_cop st.cop_to_usd_rate

/-- Source `CurrencyService.format_cop_amount`:
`f"${amount:,.0f}".replace(',', '.')`. -/
def format_cop_amount (amount : ℚ) : List Char :=
  replaceAll ',' '.' ('$' :: pyFormatComma0f (roundHalfEven amount))

/-- Source `CurrencyService.format_usd_amount`: `f"${amount:,.2f}"`.  The value
is rendered from its half-even rounding to cents. -/
def format_usd_amount (amount : ℚ) : List Char :=
  let cents := roundHalfEven (qMul 100 amount)
  '$' :: (if cents < 0 then ['-'] else []) ++
    (groupLE (natDigitsLE (cents.natAbs / 100))).reverse ++
    '.' :: pad2 (cents.natAbs % 100)

/-- The cleaning step of `parse_amount`:
`amount_str.replace('$', '').replace('.', '').replace(',', '.')`. -/
def parseClean (s : List Char) : List Char :=
  replaceAll ',' '.' (removeAll '.' (removeAll '$' s))

/-- Source `CurrencyService.parse_amount`: strings are cleaned and fed to
`float()` with `ValueError` mapped to `0.0`; ints and floats are passed
through `float()`; anything else yields `0.0`. -/
def parse_amount (v : PyValue) : ℚ :=
  match v with
  | .str s => (pyFloat (parseClean s)).getD 0
  | .int n => (n : ℚ)
  | .float q => q
  | _ => 0

end Currency

/-! ## Shared record and ledger-row model

Both poster variants consume a list of record dicts with the keys
`fecha`, `detalle`, `categoria`, `montoCOP`, `montoUSD` (any of which
may be absent — `dict.get` supplies defaults). -/

/-- A subscription/expense record as passed to `register_expenses`. -/
structure ExpenseRec where
  fecha : Option PyValue := .none
  detalle : Option PyValue := .none
  categoria : Option PyValue := .none
  montoCOP : Option PyValue := .none
  montoUSD : Option PyValue := .none
  deriving DecidableEq, Repr

/-- A calendar date as used by `datetime.now()` at posting time. -/
structure PyDate where
  month : ℕ
  day : ℕ
  year : ℕ
  deriving DecidableEq, Repr

/-- Four-digit zero-padded year rendering. -/
def pad4 (y : ℕ) : List Char :=
  [digitChar (y / 1000 % 10), digitChar (y / 100 % 10),
   digitChar (y / 10 % 10), digitChar (y % 10)]

/-! ## `accounting_service.py` — class `AccountingService` -/

namespace Accounting

/-- Source `AccountingService.format_date_for_accounting`:
`date_obj.strftime("%m/%d/%Y")`. -/
def format_date_for_accounting (d : PyDate) : List Char :=
  pad2 d.month ++ '/' :: pad2 d.day ++ '/' :: pad4 d.year

/-- Source `AccountingService.format_currency` (accounting_service.py): strings
have `'$'`, `'.'` and `','` removed and go through `float()` with
`ValueError` mapped to `0.0`; non-strings go to `float()` directly, so a
non-numeric non-string raises an uncaught `TypeError`. -/
def format_currency (value : PyValue) : Except PyErr ℚ :=
  match value with
  | .str s => .ok ((pyFloat (removeAll ',' (removeAll '.' (removeAll '$' s)))).getD 0)
  | .int n => .ok (n : ℚ)
  | .float q => .ok q
  | _ => .error .typeError

/-- One expense-ledger row as built in
`AccountingService.register_in_expenses_sheet`:
`[formatted_date, detalle, categoria, montoCOP, montoUSD]`, with the
monetary cells passed through raw. -/
def expenses_row (today : PyDate) (sub : ExpenseRec) : List PyValue :=
  [ .str (format_date_for_accounting today),
    sub.detalle.getD (.str (toCL "Sin detalles")),
    sub.categoria.getD (.str (toCL "Sin categoría")),
    sub.montoCOP.getD (.str []),
    sub.montoUSD.getD (.str []) ]

/-- The full expense-ledger batch built by `register_in_expenses_sheet`. -/
def expenses_rows (today : PyDate) (subs : List ExpenseRec) : List (List PyValue) :=
  subs.map (expenses_row today)

/-- The numeric movement amount computed per record in
`AccountingService.register_in_movements_sheet`:
`monto_valor = -abs(self.format_currency(sub.get('montoCOP', '$0')))`. -/
def monto_valor (sub : ExpenseRec) : Except PyErr ℚ :=
  (format_currency (sub.montoCOP.getD (.str (toCL "$0")))).map (fun q => qNeg (qAbs q))

/-- The movement amounts for a whole batch, one per record, in order
(the `for sub in subscriptions` loop); an exception from
`format_currency` aborts the batch. -/
def movement_amounts : List ExpenseRec → Except PyErr (List ℚ)
  | [] => .ok []
  | sub :: rest =>
    match monto_valor sub with
    | .error e => .error e
    | .ok q =>
      match movement_amounts rest with
      | .error e => .error e
      | .ok qs => .ok (q :: qs)

/-- Environment for one `register_expenses` call: whether each
`get_service()` succeeds, and the outcome of each sheet's remote
read/append calls (`.error` models a raised API exception). -/
structure PostEnv where
  expService : Bool
  expRemote : Except PyErr Unit
  movService : Bool
  movRemote : Except PyErr Unit
  deriving Repr

/-- Source `AccountingService.register_in_expenses_sheet`: the whole body is in
`try/except Exception`; a missing service returns `False`, the row build
never raises, and any raised remote call is converted to `False`. -/
def register_in_expenses_sheet (today : PyDate) (subs : List ExpenseRec)
    (env : PostEnv) : Bool :=
  if !env.expService then false
  else
    let _values := expenses_rows today subs
    match env.expRemote with
    | .ok _ => true
    | .error _ => false

/-- Source `AccountingService.register_in_movements_sheet`: as above, but the
row build itself (`format_currency`) can raise, which the surrounding
`except Exception` also converts to `False`. -/
def register_in_movements_sheet (subs : List ExpenseRec) (env : PostEnv) : Bool :=
  if !env.movService then false
  else
    match movement_amounts subs with
    | .error _ => false
    | .ok _ =>
      match env.movRemote with
      | .ok _ => true
      | .error _ => false

/-- Source `AccountingService.register_expenses`: empty input short-circuits to
`True`; otherwise both sheet registrations run and the result is their
conjunction. -/
def register_expenses (today : PyDate) (subs : List ExpenseRec)
    (env : PostEnv) : Bool :=
  if subs.isEmpty then true
  else
    let expenses_result := register_in_expenses_sheet today subs env
    let movements_result := register_in_movements_sheet subs env
    expenses_result && movements_result

end Accounting

/-! ## `sheets_service.py` — the second `AccountingService` variant -/

namespace Sheets

/-- Source `AccountingService.extract_numeric_value` (sheets_service.py):
strings have `'$'` and `'.'` removed and `','` replaced by `'.'`, then
go through `float()` with no exception handler (`ValueError`
propagates); ints and floats pass through `float()`; anything else
yields `0.0`. -/
def extract_numeric_value (value_str : PyValue) : Except PyErr ℚ :=
  match value_str with
  | .str s =>
    match pyFloat (replaceAll ',' '.' (removeAll '.' (removeAll '$' s))) with
    | .some q => .ok q
    | .none => .error .valueError
  | .int n => .ok (n : ℚ)
  | .float q => .ok q
  | _ => .ok 0

/-- The numeric movement amount per record in
`register_in_movements_sheet` (sheets_service.py):
`monto_cop = -abs(self.extract_numeric_value(sub.get('montoCOP', '0')))`,
written to the ledger as a typed numeric cell. -/
def movement_amount (sub : ExpenseRec) : Except PyErr ℚ :=
  (extract_numeric_value (sub.montoCOP.getD (.str (toCL "0")))).map (fun q => qNeg (qAbs q))

/-- The movement amounts for a whole batch, in order (the
`for sub in subscriptions` loop). -/
def movement_amounts : List ExpenseRec → Except PyErr (List ℚ)
  | [] => .ok []
  | sub :: rest =>
    match movement_amount sub with
    | .error e => .error e
    | .ok q =>
      match movement_amounts rest with
      | .error e => .error e
      | .ok qs => .ok (q :: qs)

end Sheets

/-! ## `invoice_ai_service.py` — class `InvoiceAIService` -/

namespace Invoice

/-- The raw field set returned by the structured-extraction step
(`json.loads` output): a dict with any subset of the five keys, each
holding an arbitrary JSON value. -/
structure InvoiceInfo where
  fecha : Option PyValue := .none
  detalle : Option PyValue := .none
  monto : Option PyValue := .none
  moneda : Option PyValue := .none
  categoria : Option PyValue := .none
  deriving DecidableEq, Repr

/-- Source `self.available_categories`. -/
def available_categories : List (List Char) :=
  [toCL "Tech", toCL "Workspace", toCL "Legal", toCL "Marketing",
   toCL "Suscripciones", toCL "Otros"]

/-- Source `datetime.strptime(s, "%d/%m/%Y")` acceptance on a string: three
`'/'`-separated all-digit fields, day in 1..31 (1–2 digits), month in
1..12 (1–2 digits), four-digit year.  (Month-length/leap-day rejection
is below this model's resolution; no claim depends on it.) -/
def validDMY (s : List Char) : Bool :=
  match s.splitOn '/' with
  | [d, m, y] =>
    d.all isDigitC && m.all isDigitC && y.all isDigitC &&
    decide (1 ≤ d.length) && decide (d.length ≤ 2) &&
    decide (1 ≤ m.length) && decide (m.length ≤ 2) &&
    decide (y.length = 4) &&
    decide (1 ≤ digitsVal d) && decide (digitsVal d ≤ 31) &&
    decide (1 ≤ digitsVal m) && decide (digitsVal m ≤ 12)
  | _ => false

/-- Numeric value of a Python int/float (used for the `> 1000`
comparison; by that point `monto` is always numeric). -/
def pyNumVal : PyValue → ℚ
  | .int n => (n : ℚ)
  | .float q => q
  | _ => 0

/-- Source `InvoiceAIService.validate_invoice_info`, with `now` the
`datetime.now().strftime("%d/%m/%Y")` string.  Mirrors the source
order: fill defaults for missing fields, then check the date — where
`datetime.strptime` raises `TypeError` (not the caught `ValueError`)
if the value is not a string — then coerce the amount, then fix the
currency by the `> 1000` magnitude heuristic, then fix the category. -/
def validate_invoice_info (now : List Char) (info : InvoiceInfo) :
    Except PyErr InvoiceInfo :=
  -- step 1: defaults for missing required fields
  let fecha₀ := info.fecha.getD (.str now)
  let detalle₀ := info.detalle.getD (.str (toCL "Gasto no especificado"))
  let monto₀ := info.monto.getD (.int 0)
  let moneda₀ := info.moneda.getD (.str (toCL "COP"))
  let categoria₀ := info.categoria.getD (.str (toCL "Otros"))
  -- step 2: date check; only ValueError is caught, TypeError escapes
  match fecha₀ with
  | .str s =>
    let fecha₁ : PyValue := if validDMY s then .str s else .str now
    -- step 3: amount coercion
    let monto₁ : PyValue :=
      match monto₀ with
      | .int n => .int n
      | .float q => .float q
      | v =>
        match pyFloat (removeAll '$' (removeAll ',' (pyStr v))) with
        | .some q => .float q
        | .none => .int 0
    -- step 4: currency check with magnitude heuristic
    let moneda₁ : PyValue :=
      if moneda₀ = .str (toCL "USD") || moneda₀ = .str (toCL "COP") then moneda₀
      else if 1000 < pyNumVal monto₁ then .str (toCL "COP")
      else .str (toCL "USD")
    -- step 5: category check
    let categoria₁ : PyValue :=
      if (available_categories.map PyValue.str).contains categoria₀ then categoria₀
      else .str (toCL "Otros")
    .ok ⟨some fecha₁, some detalle₀, some monto₁, some moneda₁, some categoria₁⟩
  | _ => .error .typeError

end Invoice

/-! ## `telegram_bot.py` — class `IrrelevalBot`

The two `ConversationHandler`s are modelled by their state tables: each
state maps to the handler list registered for it in `setup_handlers`,
dispatch tries the state's handlers first and then the fallbacks, and an
update matching no handler leaves the conversation state unchanged
(python-telegram-bot semantics). -/

namespace Bot

/-- Manual-flow conversation states (`DETALLE, ..., CONFIRMACION = range(5)`). -/
inductive ManualState where
  | DETALLE | CATEGORIA | SELECCION_MONEDA | MONTO | CONFIRMACION
  deriving DecidableEq, Repr

/-- Invoice-flow conversation states
(`RECIBIR_FACTURA, PROCESANDO_FACTURA, CONFIRMACION_FACTURA = range(5, 8)`). -/
inductive InvoiceState where
  | RECIBIR_FACTURA | PROCESANDO_FACTURA | CONFIRMACION_FACTURA
  deriving DecidableEq, Repr

/-- Where a dispatch step leaves the conversation. -/
inductive ConvOutcome where
  | manual (s : ManualState)
  | invoice (s : InvoiceState)
  | ended
  deriving DecidableEq, Repr

/-- Source `context.user_data` for one chat. -/
structure UserData where
  detalle : Option PyValue := .none
  categoria : Option PyValue := .none
  moneda_seleccionada : Option PyValue := .none
  montoCOP : Option PyValue := .none
  montoUSD : Option PyValue := .none
  fecha : Option PyValue := .none
  deriving DecidableEq, Repr

/-- An incoming chat-transport event. -/
inductive TgUpdate where
  | message (text : List Char) (isCommand : Bool)
  | callback (data : List Char)
  | photo
  | pdfDoc
  deriving DecidableEq, Repr

/-- The filters used in `setup_handlers`. -/
inductive Trigger where
  | commandT (name : List Char)      -- CommandHandler(name, ...)
  | textNoCommand                    -- MessageHandler(filters.TEXT & ~filters.COMMAND, ...)
  | callbackT                        -- CallbackQueryHandler(...)
  | photoT                           -- MessageHandler(filters.PHOTO, ...)
  | pdfT                             -- MessageHandler(filters.Document.PDF, ...)
  deriving DecidableEq, Repr

/-- Whether a filter accepts an update. -/
def triggerMatches : Trigger → TgUpdate → Bool
  | .commandT name, .message t true => t = '/' :: name
  | .textNoCommand, .message _ isCmd => !isCmd
  | .callbackT, .callback _ => true
  | .photoT, .photo => true
  | .pdfT, .pdfDoc => true
  | _, _ => false

/-- Text of a message update (handlers only read it when their filter
guarantees a message). -/
def updText : TgUpdate → List Char
  | .message t _ => t
  | _ => []

/-- Callback data of a callback update. -/
def updData : TgUpdate → List Char
  | .callback d => d
  | _ => []

/-- Collaborator outcomes for one dispatch step. -/
structure BotEnv where
  rates : Currency.Rates
  today : PyDate                 -- datetime.now() calendar day
  nowStr : List Char             -- datetime.now().strftime("%d/%m/%Y")
  post : Accounting.PostEnv
  invoiceResult : Except PyErr (Option Invoice.InvoiceInfo)
      -- outcome of download + process_invoice (error = raised exception)
  deriving Repr

/-- Source `monto_str[1:]` after the `monto_str.startswith('$')` check: strip
one leading `'$'`. -/
def stripDollar (s : List Char) : List Char :=
  match s with
  | '$' :: r => r
  | _ => s

/-- The amount-cleaning step of `process_monto`: strip one leading `'$'`
(`startswith` check), then remove every `','` and `'.'`. -/
def montoClean (s : List Char) : List Char :=
  removeAll '.' (removeAll ',' (stripDollar s))

/-- Source `IrrelevalBot.process_monto`: reads `moneda_seleccionada`
(`KeyError` if unset), parses the cleaned text with `float()` inside a
`try/except ValueError`, re-prompting in `MONTO` on failure; on success
derives the counterpart amount and stores both formatted amounts. -/
def process_monto (env : BotEnv) (ud : UserData) (text : List Char) :
    Except PyErr (UserData × ConvOutcome) :=
  match ud.moneda_seleccionada with
  | .none => .error .keyError
  | .some mv =>
    match pyFloat (montoClean text) with
    | .none => .ok (ud, .manual .MONTO)
    | .some monto =>
      if mv = .str (toCL "COP") then
        let monto_cop := monto
        let monto_usd := Currency.convert_cop_to_usd env.rates monto_cop
        .ok ({ ud with
                montoCOP := some (.str (Currency.format_cop_amount monto_cop)),
                montoUSD := some (.str (Currency.format_usd_amount monto_usd)) },
             .manual .CONFIRMACION)
      else
        let monto_usd := monto
        let monto_cop := Currency.convert_usd_to_cop env.rates monto_usd
        .ok ({ ud with
                montoUSD := some (.str (Currency.format_usd_amount monto_usd)),
                montoCOP := some (.str (Currency.format_cop_amount monto_cop)) },
             .manual .CONFIRMACION)

/-- The builtin `float(v)` as applied to `invoice_info['monto']` in
`show_invoice_confirmation`. -/
def pyFloatBuiltin : PyValue → Except PyErr ℚ
  | .int n => .ok (n : ℚ)
  | .float q => .ok q
  | .str s =>
    match pyFloat s with
    | .some q => .ok q
    | .none => .error .valueError
  | _ => .error .typeError

/-- Source `IrrelevalBot.show_invoice_confirmation` for a non-`None`
`invoice_info`: copies the extracted fields into `user_data`, deriving
the counterpart amount.  Mutations happen in source order, so a raise
part-way leaves the earlier writes in place; the second component is the
exception, if any. -/
def show_invoice_confirmation (env : BotEnv) (ud : UserData)
    (info : Invoice.InvoiceInfo) : UserData × Option PyErr :=
  match info.detalle with
  | .none => (ud, some .keyError)
  | .some d =>
    let ud₁ := { ud with detalle := some d }
    match info.categoria with
    | .none => (ud₁, some .keyError)
    | .some c =>
      let ud₂ := { ud₁ with categoria := some c }
      match info.monto with
      | .none => (ud₂, some .keyError)
      | .some mv =>
        match pyFloatBuiltin mv with
        | .error e => (ud₂, some e)
        | .ok monto =>
          match info.moneda with
          | .none => (ud₂, some .keyError)
          | .some mon =>
            let ud₃ :=
              if mon = .str (toCL "COP") then
                { ud₂ with
                  montoCOP := some (.str (Currency.format_cop_amount monto)),
                  montoUSD := some (.str (Currency.format_usd_amount
                    (Currency.convert_cop_to_usd env.rates monto))) }
              else
                { ud₂ with
                  montoUSD := some (.str (Currency.format_usd_amount monto)),
                  montoCOP := some (.str (Currency.format_cop_amount
                    (Currency.convert_usd_to_cop env.rates monto))) }
            match info.fecha with
            | .none => (ud₃, some .keyError)
            | .some f => ({ ud₃ with fecha := some f }, Option.none)

/-- A registered handler: a filter plus its callback. -/
structure BotHandler where
  trigger : Trigger
  run : BotEnv → UserData → TgUpdate → Except PyErr (UserData × ConvOutcome)

/-- Source `IrrelevalBot.cmd_cancelar`: replies and returns
`ConversationHandler.END` unconditionally. -/
def cmd_cancelar_run : BotEnv → UserData → TgUpdate → Except PyErr (UserData × ConvOutcome) :=
  fun _ ud _ => .ok (ud, .ended)

/-- Source `IrrelevalBot.process_detalle`. -/
def process_detalle_run : BotEnv → UserData → TgUpdate → Except PyErr (UserData × ConvOutcome) :=
  fun _ ud u => .ok ({ ud with detalle := some (.str (updText u)) }, .manual .CATEGORIA)

/-- Source `IrrelevalBot.process_categoria`. -/
def process_categoria_run : BotEnv → UserData → TgUpdate → Except PyErr (UserData × ConvOutcome) :=
  fun _ ud u => .ok ({ ud with categoria := some (.str (updData u)) }, .manual .SELECCION_MONEDA)

/-- Source `IrrelevalBot.process_seleccion_moneda`. -/
def process_seleccion_moneda_run : BotEnv → UserData → TgUpdate → Except PyErr (UserData × ConvOutcome) :=
  fun _ ud u => .ok ({ ud with moneda_seleccionada := some (.str (updData u)) }, .manual .MONTO)

/-- Source `IrrelevalBot.process_monto` as a handler. -/
def process_monto_run : BotEnv → UserData → TgUpdate → Except PyErr (UserData × ConvOutcome) :=
  fun env ud u => process_monto env ud (updText u)

/-- The `gasto` record built in `process_confirmacion`: direct
`user_data` indexing (`KeyError` when a field is unset) plus a fresh
capture-time date. -/
def build_gasto_manual (env : BotEnv) (ud : UserData) : Except PyErr ExpenseRec :=
  match ud.detalle, ud.categoria, ud.montoCOP, ud.montoUSD with
  | some d, some c, some mc, some mu =>
    .ok ⟨some (.str env.nowStr), some d, some c, some mc, some mu⟩
  | _, _, _, _ => .error .keyError

/-- Source `IrrelevalBot.process_confirmacion`. -/
def process_confirmacion_run : BotEnv → UserData → TgUpdate → Except PyErr (UserData × ConvOutcome) :=
  fun env ud u =>
    if updData u = toCL "cancelar" then .ok (ud, .ended)
    else
      match build_gasto_manual env ud with
      | .error e => .error e
      | .ok g =>
        let _success := Accounting.register_expenses env.today [g] env.post
        .ok (ud, .ended)

/-- The `gasto` record built in `process_confirmacion_factura`: same as
the manual one except the date falls back on
`user_data.get('fecha', now)`. -/
def build_gasto_factura (env : BotEnv) (ud : UserData) : Except PyErr ExpenseRec :=
  match ud.detalle, ud.categoria, ud.montoCOP, ud.montoUSD with
  | some d, some c, some mc, some mu =>
    .ok ⟨some (ud.fecha.getD (.str env.nowStr)), some d, some c, some mc, some mu⟩
  | _, _, _, _ => .error .keyError

/-- Source `IrrelevalBot.process_confirmacion_factura`. -/
def process_confirmacion_factura_run :
    BotEnv → UserData → TgUpdate → Except PyErr (UserData × ConvOutcome) :=
  fun env ud u =>
    if updData u = toCL "cancelar" then .ok (ud, .ended)
    else
      match build_gasto_factura env ud with
      | .error e => .error e
      | .ok g =>
        let _success := Accounting.register_expenses env.today [g] env.post
        .ok (ud, .ended)

/-- Source `IrrelevalBot.process_factura_photo` / `process_factura_pdf` share
this body: extraction failure (raised exception) is caught and ends the
flow; otherwise `show_invoice_confirmation` runs and the handler returns
`CONFIRMACION_FACTURA` (even for a `None` extraction, whose early return
inside the helper does not end the conversation). -/
def process_factura_run : BotEnv → UserData → TgUpdate → Except PyErr (UserData × ConvOutcome) :=
  fun env ud _ =>
    match env.invoiceResult with
    | .error _ => .ok (ud, .ended)
    | .ok .none => .ok (ud, .invoice .CONFIRMACION_FACTURA)
    | .ok (.some info) =>
      match show_invoice_confirmation env ud info with
      | (_, some _) => .ok (ud, .ended)       -- exception caught by the handler
      | (ud₂, .none) => .ok (ud₂, .invoice .CONFIRMACION_FACTURA)

/-- The manual `ConversationHandler`'s states table. -/
def manual_states : ManualState → List BotHandler
  | .DETALLE => [⟨.textNoCommand, process_detalle_run⟩]
  | .CATEGORIA => [⟨.callbackT, process_categoria_run⟩]
  | .SELECCION_MONEDA => [⟨.callbackT, process_seleccion_moneda_run⟩]
  | .MONTO => [⟨.textNoCommand, process_monto_run⟩]
  | .CONFIRMACION => [⟨.callbackT, process_confirmacion_run⟩]

/-- The invoice `ConversationHandler`'s states table.  Note that the
source registers no handlers for `PROCESANDO_FACTURA` (the key is absent
from the `states` dict). -/
def invoice_states : InvoiceState → List BotHandler
  | .RECIBIR_FACTURA => [⟨.photoT, process_factura_run⟩, ⟨.pdfT, process_factura_run⟩]
  | .PROCESANDO_FACTURA => []
  | .CONFIRMACION_FACTURA => [⟨.callbackT, process_confirmacion_factura_run⟩]

/-- Both conversations' fallbacks: `CommandHandler("cancelar", cmd_cancelar)`. -/
def conv_fallbacks : List BotHandler := [⟨.commandT (toCL "cancelar"), cmd_cancelar_run⟩]

/-- One dispatch step of a `ConversationHandler`: the current state's
handlers are tried in registration order, then the fallbacks; an update
matching nothing leaves the conversation where it was (`noMatch`). -/
def conv_step (stateHs fallbacks : List BotHandler) (noMatch : ConvOutcome)
    (env : BotEnv) (ud : UserData) (u : TgUpdate) :
    Except PyErr (UserData × ConvOutcome) :=
  match stateHs.find? (fun h => triggerMatches h.trigger u) with
  | .some h => h.run env ud u
  | .none =>
    match fallbacks.find? (fun h => triggerMatches h.trigger u) with
    | .some h => h.run env ud u
    | .none => .ok (ud, noMatch)

/-- The `/cancelar` command update. -/
def cancelUpd : TgUpdate := .message (toCL "/cancelar") true

end Bot

/-! ## General lemmas: rational wrappers -/

theorem qNeg_eq (a : ℚ) : qNeg a = -a := by
  rw [qNeg, ← Rat.mkRat_self (-a), Rat.neg_num, Rat.neg_den]

theorem qAdd_eq (a b : ℚ) : qAdd a b = a + b := by
  rw [qAdd, ← Rat.add_def']

theorem qSub_eq (a b : ℚ) : qSub a b = a - b := by
  rw [qSub, qAdd_eq, qNeg_eq, ← sub_eq_add_neg]

theorem qMul_eq (a b : ℚ) : qMul a b = a * b := by
  rw [qMul, Rat.mul_def, Rat.normalize_eq_mkRat]

theorem qAbs_eq (a : ℚ) : qAbs a = |a| := by
  rcases le_or_lt 0 a with h | h
  · have hn : 0 ≤ a.num := Rat.num_nonneg.mpr h
    rw [abs_of_nonneg h, qAbs, Int.natAbs_of_nonneg hn, Rat.mkRat_self]
  · have hn : a.num ≤ 0 := le_of_lt (Rat.num_neg.mpr h)
    rw [abs_of_neg h, qAbs, Int.ofNat_natAbs_of_nonpos hn, ← qNeg, qNeg_eq]

/-! ## General lemmas: digits and numerals -/

theorem digitChar_isDigit {d : ℕ} (hd : d < 10) : isDigitC (digitChar d) = true := by
  interval_cases d <;> decide

theorem digitChar_digToNat {d : ℕ} (hd : d < 10) : digToNat (digitChar d) = d := by
  interval_cases d <;> decide

theorem isDigit_mem_natDigitsAux :
    ∀ (fuel n : ℕ), ∀ c ∈ natDigitsAux fuel n, isDigitC c = true := by
  intro fuel
  induction fuel with
  | zero => intro n c hc; simp [natDigitsAux] at hc
  | succ fuel ih =>
    intro n c hc
    rw [natDigitsAux] at hc
    split at hc
    · simp at hc
    · rcases List.mem_cons.mp hc with rfl | h
      · exact digitChar_isDigit (Nat.mod_lt _ (by norm_num))
      · exact ih _ c h

theorem isDigit_mem_natDigitsLE {n : ℕ} : ∀ c ∈ natDigitsLE n, isDigitC c = true := by
  intro c hc
  rw [natDigitsLE] at hc
  split at hc
  · rcases List.mem_singleton.mp hc with rfl
    decide
  · exact isDigit_mem_natDigitsAux _ _ c hc

theorem natDigitsLE_ne_nil (n : ℕ) : natDigitsLE n ≠ [] := by
  rw [natDigitsLE]
  split
  · simp
  · next h =>
    match n, h with
    | m + 1, _ => simp [natDigitsAux]

theorem valLE_natDigitsAux : ∀ (fuel n : ℕ), n ≤ fuel → valLE (natDigitsAux fuel n) = n := by
  intro fuel
  induction fuel with
  | zero => intro n h; interval_cases n; simp [natDigitsAux, valLE]
  | succ fuel ih =>
    intro n h
    rw [natDigitsAux]
    split
    · simp [valLE]; omega
    · next hn =>
      rw [valLE, digitChar_digToNat (Nat.mod_lt _ (by norm_num)),
        ih (n / 10) (by omega)]
      omega

theorem valLE_natDigitsLE (n : ℕ) : valLE (natDigitsLE n) = n := by
  rw [natDigitsLE]
  split
  · next h => subst h; decide
  · exact valLE_natDigitsAux n n le_rfl

theorem foldl_digits_reverse (l : List Char) :
    ∀ a : ℕ, l.reverse.foldl (fun a c => 10 * a + digToNat c) a
      = a * 10 ^ l.length + valLE l := by
  induction l with
  | nil => intro a; simp [valLE]
  | cons c cs ih =>
    intro a
    rw [List.reverse_cons, List.foldl_append, ih a]
    simp [valLE, List.length_cons]
    ring

theorem digitsVal_reverse (l : List Char) : digitsVal l.reverse = valLE l := by
  rw [digitsVal, foldl_digits_reverse]
  simp

/-! ## General lemmas: list scans and cleaning -/

theorem takeWhile_all {p : Char → Bool} :
    ∀ {l : List Char}, (∀ c ∈ l, p c = true) → l.takeWhile p = l := by
  intro l
  induction l with
  | nil => intro _; rfl
  | cons c cs ih =>
    intro h
    rw [List.takeWhile_cons, h c (List.mem_cons_self c cs)]
    simp [ih fun x hx => h x (List.mem_cons_of_mem _ hx)]

theorem dropWhile_all {p : Char → Bool} :
    ∀ {l : List Char}, (∀ c ∈ l, p c = true) → l.dropWhile p = [] := by
  intro l
  induction l with
  | nil => intro _; rfl
  | cons c cs ih =>
    intro h
    rw [List.dropWhile_cons, h c (List.mem_cons_self c cs)]
    simp [ih fun x hx => h x (List.mem_cons_of_mem _ hx)]

theorem pyFloatPos_digits {l : List Char} (hne : l ≠ [])
    (hd : ∀ c ∈ l, isDigitC c = true) :
    pyFloatPos l = some (digitsVal l : ℚ) := by
  rw [pyFloatPos]
  simp only [takeWhile_all hd, dropWhile_all hd]
  rw [if_neg (by simpa using hne)]

theorem pyFloat_digits {l : List Char} (hne : l ≠ [])
    (hd : ∀ c ∈ l, isDigitC c = true) :
    pyFloat l = some (digitsVal l : ℚ) := by
  rw [pyFloat]
  · exact pyFloatPos_digits hne hd
  · rintro r rfl
    exact absurd (hd '-' (List.mem_cons_self _ _)) (by decide)
  · rintro r rfl
    exact absurd (hd '+' (List.mem_cons_self _ _)) (by decide)

theorem pyFloat_neg_digits {l : List Char} (hne : l ≠ [])
    (hd : ∀ c ∈ l, isDigitC c = true) :
    pyFloat ('-' :: l) = some (qNeg (digitsVal l : ℚ)) := by
  show (pyFloatPos l).map qNeg = _
  rw [pyFloatPos_digits hne hd]
  rfl

/-! ## General lemmas: grouping and separator cleaning -/

theorem groupLE_eq_self_short : ∀ (l : List Char), l.length ≤ 3 → groupLE l = l
  | [], _ => rfl
  | [_], _ => rfl
  | [_, _], _ => rfl
  | [_, _, _], _ => rfl
  | _ :: _ :: _ :: _ :: _, h => by simp at h

theorem groupLE_filter_comma (l : List Char) :
    (groupLE l).filter (fun c => c ≠ ',') = l.filter (fun c => c ≠ ',') := by
  induction l using groupLE.induct with
  | case1 a b c d rest ih =>
    show List.filter _ (a :: b :: c :: ',' :: groupLE (d :: rest)) = _
    simp only [List.filter_cons, ih]
    norm_num
  | case2 l h =>
    rw [groupLE_eq_self_short l ?short]
    match l, h with
    | [], _ => simp
    | [_], _ => simp
    | [_, _], _ => simp
    | [_, _, _], _ => simp
    | a :: b :: c :: d :: rest, h => exact (h a b c d rest rfl).elim

theorem mem_groupLE {l : List Char} {c : Char} (hc : c ∈ groupLE l) :
    c = ',' ∨ c ∈ l := by
  by_cases h : c = ','
  · exact Or.inl h
  · right
    have hmem : c ∈ (groupLE l).filter (fun x => x ≠ ',') :=
      List.mem_filter.mpr ⟨hc, by simpa using h⟩
    rw [groupLE_filter_comma] at hmem
    exact (List.mem_filter.mp hmem).1

theorem removeAll_eq_self {a : Char} {l : List Char} (h : ∀ c ∈ l, c ≠ a) :
    removeAll a l = l :=
  List.filter_eq_self.mpr fun c hc => by simpa using h c hc

theorem replaceAll_eq_self {a b : Char} {l : List Char} (h : ∀ c ∈ l, c ≠ a) :
    replaceAll a b l = l := by
  rw [replaceAll]
  conv_rhs => rw [← List.map_id l]
  exact List.map_congr_left fun c hc => by simp [h c hc]

theorem clean_swap (x : List Char) :
    removeAll '.' (replaceAll ',' '.' x) = removeAll ',' (removeAll '.' x) := by
  induction x with
  | nil => rfl
  | cons c cs ih =>
    by_cases h1 : c = ','
    · subst h1
      simp only [replaceAll, removeAll, List.map_cons, List.filter_cons] at ih ⊢
      simpa using ih
    · by_cases h2 : c = '.'
      · subst h2
        simp only [replaceAll, removeAll, List.map_cons, List.filter_cons] at ih ⊢
        simpa [h1] using ih
      · simp only [replaceAll, removeAll, List.map_cons, List.filter_cons] at ih ⊢
        simp [h1, h2]
        simpa using ih

/-! ## General lemmas: half-even rounding on integers -/

theorem mkRat_half_pos : (0 : ℚ) < mkRat 1 2 := by
  rw [Rat.mkRat_eq_div]
  norm_num

theorem roundHalfEven_intCast (z : ℤ) : roundHalfEven (z : ℚ) = z := by
  have hf : floorQ (z : ℚ) = z := by
    rw [floorQ, Rat.num_intCast, Rat.den_intCast, Nat.cast_one, Int.fdiv_one]
  simp only [roundHalfEven, hf, qSub_eq, sub_self]
  simp [mkRat_half_pos]

end FinanceAgent

namespace FinanceAgent

theorem isDigit_ne_seps {c : Char} (h : isDigitC c = true) :
    c ≠ ',' ∧ c ≠ '.' ∧ c ≠ '$' ∧ c ≠ '-' ∧ c ≠ '+' := by
  refine ⟨?_, ?_, ?_, ?_, ?_⟩ <;> rintro rfl <;> exact absurd h (by decide)

theorem parseClean_format_cop (z : ℤ) :
    Currency.parseClean (Currency.format_cop_amount (z : ℚ))
      = (if z < 0 then ['-'] else []) ++ (natDigitsLE z.natAbs).reverse := by
  have hD : ∀ c ∈ natDigitsLE z.natAbs, isDigitC c = true := fun c hc =>
    isDigit_mem_natDigitsLE c hc
  set D := natDigitsLE z.natAbs with hDdef
  set G := groupLE D with hGdef
  have hGrev : ∀ c ∈ G.reverse, c = ',' ∨ isDigitC c = true := by
    intro c hc
    rcases mem_groupLE (List.mem_reverse.mp hc) with h | h
    · exact Or.inl h
    · exact Or.inr (hD c h)
  have hRep : ∀ c ∈ replaceAll ',' '.' G.reverse, c = '.' ∨ isDigitC c = true := by
    intro c hc
    rcases List.mem_map.mp hc with ⟨x, hx, rfl⟩
    rcases hGrev x hx with rfl | hxd
    · exact Or.inl (by simp)
    · right
      rw [if_neg (isDigit_ne_seps hxd).1]
      exact hxd
  have h0 : Currency.format_cop_amount (z : ℚ)
      = '$' :: ((if z < 0 then ['-'] else []) ++ replaceAll ',' '.' G.reverse) := by
    rw [Currency.format_cop_amount, roundHalfEven_intCast, pyFormatComma0f]
    simp only [replaceAll, List.map_cons, List.map_append]
    congr 1
    congr 1
    split <;> rfl
  rw [h0, Currency.parseClean]
  have h1 : removeAll '$' ('$' :: ((if z < 0 then ['-'] else []) ++ replaceAll ',' '.' G.reverse))
      = (if z < 0 then ['-'] else []) ++ replaceAll ',' '.' G.reverse := by
    rw [removeAll, List.filter_cons]
    simp only [decide_not, decide_eq_true_eq]  -- reduce the '$' head test
    rw [if_neg (by simp)]
    rw [List.filter_append]
    congr 1
    · split <;> rfl
    · exact List.filter_eq_self.mpr fun c hc => by
        rcases hRep c hc with rfl | hd
        · simp
        · simpa using (isDigit_ne_seps hd).2.2.1
  rw [h1]
  have h2 : removeAll '.' ((if z < 0 then ['-'] else []) ++ replaceAll ',' '.' G.reverse)
      = (if z < 0 then ['-'] else []) ++ D.reverse := by
    rw [removeAll, List.filter_append]
    congr 1
    · split <;> rfl
    · show removeAll '.' (replaceAll ',' '.' G.reverse) = D.reverse
      rw [clean_swap]
      rw [removeAll_eq_self (a := '.') fun c hc => by
        rcases hGrev c hc with rfl | hd
        · decide
        · exact (isDigit_ne_seps hd).2.1]
      show List.filter _ G.reverse = D.reverse
      rw [List.filter_reverse]
      congr 1
      rw [hGdef]
      rw [groupLE_filter_comma]
      exact List.filter_eq_self.mpr fun c hc => by simpa using (isDigit_ne_seps (hD c hc)).1
  rw [h2]
  exact replaceAll_eq_self fun c hc => by
    rcases List.mem_append.mp hc with h | h
    · revert h; split <;> intro h <;> simp_all
    · exact (isDigit_ne_seps (hD c (List.mem_reverse.mp h))).1

end FinanceAgent
namespace FinanceAgent

theorem natDigitsLE_reverse_digits (n : ℕ) :
    ∀ c ∈ (natDigitsLE n).reverse, isDigitC c = true := fun c hc =>
  isDigit_mem_natDigitsLE c (List.mem_reverse.mp hc)

theorem natDigitsLE_reverse_ne_nil (n : ℕ) : (natDigitsLE n).reverse ≠ [] := by
  simpa using natDigitsLE_ne_nil n

theorem digitsVal_natDigitsLE_reverse (n : ℕ) :
    digitsVal (natDigitsLE n).reverse = n := by
  rw [digitsVal_reverse, valLE_natDigitsLE]

/-- Round trip for the COP formatter: claim C1 restricted to the primary
currency. -/
theorem cop_roundtrip (z : ℤ) :
    Currency.parse_amount (.str (Currency.format_cop_amount (z : ℚ))) = (z : ℚ) := by
  show (pyFloat (Currency.parseClean (Currency.format_cop_amount (z : ℚ)))).getD 0 = (z : ℚ)
  rw [parseClean_format_cop]
  rcases lt_or_ge z 0 with hz | hz
  · rw [if_pos hz]
    show (pyFloat ('-' :: (natDigitsLE z.natAbs).reverse)).getD 0 = (z : ℚ)
    rw [pyFloat_neg_digits (natDigitsLE_reverse_ne_nil _) (natDigitsLE_reverse_digits _)]
    rw [Option.getD_some, digitsVal_natDigitsLE_reverse, qNeg_eq]
    have h1 : ((z.natAbs : ℤ) : ℚ) = -(z : ℚ) := by
      rw [Int.ofNat_natAbs_of_nonpos (le_of_lt hz)]
      push_cast
      ring
    rw [← Int.cast_natCast (R := ℚ), h1, neg_neg]
  · rw [if_neg (not_lt.mpr hz), List.nil_append]
    rw [pyFloat_digits (natDigitsLE_reverse_ne_nil _) (natDigitsLE_reverse_digits _)]
    rw [Option.getD_some, digitsVal_natDigitsLE_reverse]
    rw [← Int.cast_natCast (R := ℚ), Int.natAbs_of_nonneg hz]

end FinanceAgent
namespace FinanceAgent

theorem natDigitsAux_length :
    ∀ (fuel n k : ℕ), n < 10 ^ k → (natDigitsAux fuel n).length ≤ k := by
  intro fuel
  induction fuel with
  | zero => intro n k _; simp [natDigitsAux]
  | succ fuel ih =>
    intro n k h
    rw [natDigitsAux]
    split
    · simp
    · next hn =>
      match k with
      | 0 => omega
      | k' + 1 =>
        rw [List.length_cons]
        have : n / 10 < 10 ^ k' := by
          rw [Nat.div_lt_iff_lt_mul (by norm_num)]
          calc n < 10 ^ (k' + 1) := h
            _ = 10 ^ k' * 10 := by ring
        exact Nat.succ_le_succ (ih (n / 10) k' this)

theorem natDigitsLE_length {n k : ℕ} (hk : 1 ≤ k) (h : n < 10 ^ k) :
    (natDigitsLE n).length ≤ k := by
  rw [natDigitsLE]
  split
  · simpa using hk
  · exact natDigitsAux_length n n k h

theorem foldl_digits_init (b : List Char) :
    ∀ init : ℕ, b.foldl (fun a c => 10 * a + digToNat c) init
      = init * 10 ^ b.length + b.foldl (fun a c => 10 * a + digToNat c) 0 := by
  induction b with
  | nil => intro init; simp
  | cons c cs ih =>
    intro init
    rw [List.foldl_cons, List.foldl_cons, ih (10 * init + digToNat c),
      ih (10 * 0 + digToNat c), List.length_cons]
    ring

theorem digitsVal_append (a b : List Char) :
    digitsVal (a ++ b) = digitsVal a * 10 ^ b.length + digitsVal b := by
  rw [digitsVal, digitsVal, digitsVal, List.foldl_append, foldl_digits_init]

theorem digitsVal_pad2 {k : ℕ} (h : k < 100) : digitsVal (pad2 k) = k := by
  rw [pad2, digitsVal, List.foldl_cons, List.foldl_cons, List.foldl_nil]
  rw [digitChar_digToNat (by omega), digitChar_digToNat (by omega)]
  omega

theorem pad2_digits {k : ℕ} (h : k < 100) : ∀ c ∈ pad2 k, isDigitC c = true := by
  intro c hc
  simp only [pad2, List.mem_cons, List.not_mem_nil, or_false] at hc
  rcases hc with rfl | rfl <;> exact digitChar_isDigit (by omega)

theorem filter_ne_of_digits {a : Char} {l : List Char}
    (hl : ∀ c ∈ l, isDigitC c = true) (ha : isDigitC a = false) :
    l.filter (fun c => c ≠ a) = l := by
  refine List.filter_eq_self.mpr fun c hc => ?_
  have hc' := hl c hc
  have : c ≠ a := by rintro rfl; rw [hc'] at ha; cases ha
  simpa using this

theorem parseClean_dollar_digits_dot (A P : List Char)
    (hA : ∀ c ∈ A, isDigitC c = true) (hP : ∀ c ∈ P, isDigitC c = true) :
    Currency.parseClean (('$' :: A) ++ '.' :: P) = A ++ P := by
  rw [Currency.parseClean]
  have h1 : removeAll '$' (('$' :: A) ++ '.' :: P) = A ++ '.' :: P := by
    show List.filter (fun c => c ≠ '$') _ = _
    rw [List.filter_append, List.filter_cons, List.filter_cons]
    rw [filter_ne_of_digits hA (by decide), filter_ne_of_digits hP (by decide)]
    simp
  rw [h1]
  have h2 : removeAll '.' (A ++ '.' :: P) = A ++ P := by
    show List.filter (fun c => c ≠ '.') _ = _
    rw [List.filter_append, List.filter_cons]
    rw [filter_ne_of_digits hA (by decide), filter_ne_of_digits hP (by decide)]
    simp
  rw [h2]
  refine replaceAll_eq_self fun c hc => ?_
  rcases List.mem_append.mp hc with h | h
  · exact (isDigit_ne_seps (hA c h)).1
  · exact (isDigit_ne_seps (hP c h)).1

theorem usd_parse_format_cents (c : ℕ) (hc : c < 100000) :
    Currency.parse_amount (.str (Currency.format_usd_amount (mkRat c 100))) = (c : ℚ) := by
  have hcents : roundHalfEven (qMul 100 (mkRat c 100)) = (c : ℤ) := by
    have h100 : qMul 100 (mkRat c 100) = ((c : ℤ) : ℚ) := by
      rw [qMul_eq, Rat.mkRat_eq_div]
      push_cast
      field_simp
    rw [h100, roundHalfEven_intCast]
  have hdollars : (c : ℤ).natAbs / 100 = c / 100 := by
    simp
  have hlen : (natDigitsLE (c / 100)).length ≤ 3 :=
    natDigitsLE_length (by norm_num) (by omega)
  have hfmt : Currency.format_usd_amount (mkRat c 100)
      = ('$' :: (natDigitsLE (c / 100)).reverse) ++ '.' :: pad2 (c % 100) := by
    rw [Currency.format_usd_amount]
    simp only [hcents]
    rw [if_neg (by omega), hdollars, groupLE_eq_self_short _ hlen]
    simp
  rw [hfmt]
  show (pyFloat (Currency.parseClean _)).getD 0 = (c : ℚ)
  rw [parseClean_dollar_digits_dot _ _ (natDigitsLE_reverse_digits _) (pad2_digits (by omega))]
  have hne : (natDigitsLE (c / 100)).reverse ++ pad2 (c % 100) ≠ [] := by
    intro h
    have h2 := (List.append_eq_nil.mp h).2
    simp [pad2] at h2
  have hdig : ∀ x ∈ (natDigitsLE (c / 100)).reverse ++ pad2 (c % 100), isDigitC x = true := by
    intro x hx
    rcases List.mem_append.mp hx with h | h
    · exact natDigitsLE_reverse_digits _ x h
    · exact pad2_digits (by omega) x h
  rw [pyFloat_digits hne hdig, Option.getD_some]
  rw [digitsVal_append, digitsVal_natDigitsLE_reverse, digitsVal_pad2 (by omega)]
  have : c / 100 * 10 ^ (pad2 (c % 100)).length + c % 100 = c := by
    simp only [pad2, List.length_cons, List.length_nil]
    omega
  rw [this]

end FinanceAgent
namespace FinanceAgent

theorem pyFloatPos_chars {l : List Char} {v : ℚ} (h : pyFloatPos l = some v) :
    ∀ c ∈ l, isDigitC c = true ∨ c = '.' := by
  intro c hc
  rw [← List.takeWhile_append_dropWhile (p := isDigitC) (l := l)] at hc
  rcases List.mem_append.mp hc with hm | hm
  · exact Or.inl (List.mem_takeWhile_imp hm)
  · rw [pyFloatPos] at h
    revert h
    split
    · next heq => rw [heq] at hm; simp at hm
    · next fr heq =>
      intro h
      rw [heq] at hm
      rcases List.mem_cons.mp hm with rfl | hm
      · exact Or.inr rfl
      · split at h
        · next hcond =>
          have hall : ∀ x ∈ fr, isDigitC x = true := by
            have hc2 := hcond
            simp only [Bool.and_eq_true, List.all_eq_true] at hc2
            exact hc2.1
          exact Or.inl (hall c hm)
        · cases h
    · intro h; cases h

theorem pyFloat_chars {l : List Char} {v : ℚ} (h : pyFloat l = some v) :
    ∀ c ∈ l, isDigitC c = true ∨ c = '.' ∨ c = '-' ∨ c = '+' := by
  rw [pyFloat.eq_def] at h
  intro c hc
  revert h
  split
  · intro h
    rcases List.mem_cons.mp hc with rfl | hm
    · tauto
    · rcases Option.map_eq_some'.mp h with ⟨w, hw, _⟩
      rcases pyFloatPos_chars hw c hm with h' | h' <;> tauto
  · intro h
    rcases List.mem_cons.mp hc with rfl | hm
    · tauto
    · rcases pyFloatPos_chars h c hm with h' | h' <;> tauto
  · intro h
    rcases pyFloatPos_chars h c hc with h' | h' <;> tauto

theorem pyFloat_no_dollar {l : List Char} {v : ℚ} (h : pyFloat l = some v) : '$' ∉ l := by
  intro hc
  rcases pyFloat_chars h '$' hc with h' | h' | h' | h' <;> exact absurd h' (by decide)

end FinanceAgent
namespace FinanceAgent

theorem mem_of_mem_removeAll {a c : Char} {l : List Char} (h : c ∈ removeAll a l) : c ∈ l :=
  (List.mem_filter.mp h).1

theorem mem_of_mem_stripDollar {c : Char} {s : List Char}
    (h : c ∈ Bot.stripDollar s) : c ∈ s := by
  revert h
  rw [Bot.stripDollar.eq_def]
  split
  · exact fun h => List.mem_cons_of_mem _ h
  · exact fun h => h

theorem removeAll_dollar_stripDollar :
    ∀ (s : List Char), '$' ∉ Bot.stripDollar s → removeAll '$' s = Bot.stripDollar s := by
  intro s
  match s with
  | [] => intro _; rfl
  | c :: r =>
    by_cases hc : c = '$'
    · subst hc
      intro hd
      have hs : Bot.stripDollar ('$' :: r) = r := rfl
      rw [hs] at hd ⊢
      rw [removeAll, List.filter_cons, if_neg (by decide)]
      exact List.filter_eq_self.mpr fun x hx => by
        simpa using fun hxeq : x = '$' => hd (hxeq ▸ hx)
    · intro hd
      have hs : Bot.stripDollar (c :: r) = c :: r := by
        rw [Bot.stripDollar.eq_def]
        split
        · next heq =>
          exfalso
          exact hc (by injection heq)
        · rfl
      rw [hs] at hd ⊢
      exact List.filter_eq_self.mpr fun x hx => by
        simpa using fun hxeq : x = '$' => hd (hxeq ▸ hx)

/-- With no comma in the input, `process_monto`'s cleaning and
`parse_amount`'s cleaning produce the same string on every text the
flow's `float()` accepts. -/
theorem parseClean_eq_montoClean {s : List Char} {v : ℚ} (hcomma : ',' ∉ s)
    (h : pyFloat (Bot.montoClean s) = some v) :
    Currency.parseClean s = Bot.montoClean s := by
  have hs1comma : ',' ∉ Bot.stripDollar s := fun hc => hcomma (mem_of_mem_stripDollar hc)
  have hmc : Bot.montoClean s = removeAll '.' (Bot.stripDollar s) := by
    rw [Bot.montoClean]
    congr 1
    exact removeAll_eq_self fun c hc => by
      simpa using fun hceq : c = ',' => hs1comma (hceq ▸ hc)
  have hdollar : '$' ∉ Bot.stripDollar s := by
    intro hc
    have h2 : '$' ∈ Bot.montoClean s := by
      rw [hmc, removeAll]
      exact List.mem_filter.mpr ⟨hc, by decide⟩
    exact pyFloat_no_dollar h h2
  rw [Currency.parseClean, removeAll_dollar_stripDollar s hdollar, ← hmc]
  refine replaceAll_eq_self fun c hc => ?_
  rintro rfl
  rw [hmc] at hc
  exact hs1comma (mem_of_mem_removeAll hc)

end FinanceAgent
namespace FinanceAgent

/-- C5 (amended): a refresh either succeeds — returning `true` with both
rates taken from the parsed remote cells — or returns `false` having
left `cop_to_usd_rate` untouched; in the failure case the state is
either fully unchanged or, when the first remote cell parses and the
second does not, torn: `usd_to_cop_rate` alone has been updated. -/
theorem c5_load_amended :
    ∀ (st : Currency.Rates) (fetch : Option (List (List (List Char))))
      (st' : Currency.Rates) (ok : Bool),
      Currency.load_exchange_rates st fetch = (st', ok) →
      (ok = true ∨ st'.cop_to_usd_rate = st.cop_to_usd_rate) ∧
      (ok = true →
        ∃ row0 row1 rest c0 c1,
          fetch = some (row0 :: row1 :: rest) ∧
          row0.head? = some c0 ∧ row1.head? = some c1 ∧
          pyFloat c0 = some st'.usd_to_cop_rate ∧
          pyFloat c1 = some st'.cop_to_usd_rate) := by
  intro st fetch st' ok h
  match fetch with
  | Option.none => cases h; exact ⟨Or.inr rfl, by simp⟩
  | Option.some [] => cases h; exact ⟨Or.inr rfl, by simp⟩
  | Option.some [row0] => cases h; exact ⟨Or.inr rfl, by simp⟩
  | Option.some ([] :: row1 :: rest) => cases h; exact ⟨Or.inr rfl, by simp⟩
  | Option.some ((c0 :: r0) :: [] :: rest) =>
    rw [show Currency.load_exchange_rates st (some ((c0 :: r0) :: [] :: rest))
        = (match pyFloat c0 with
          | Option.none => (st, false)
          | Option.some r1 => ({ st with usd_to_cop_rate := r1 }, false)) from rfl] at h
    cases hp0 : pyFloat c0 with
    | none => rw [hp0] at h; cases h; exact ⟨Or.inr rfl, by simp⟩
    | some r1 => rw [hp0] at h; cases h; exact ⟨Or.inr rfl, by simp⟩
  | Option.some ((c0 :: r0) :: (c1 :: r1tail) :: rest) =>
    rw [show Currency.load_exchange_rates st (some ((c0 :: r0) :: (c1 :: r1tail) :: rest))
        = (match pyFloat c0 with
          | Option.none => (st, false)
          | Option.some r1 =>
            match pyFloat c1 with
            | Option.none => ({ st with usd_to_cop_rate := r1 }, false)
            | Option.some r2 => (⟨r1, r2⟩, true)) from rfl] at h
    cases hp0 : pyFloat c0 with
    | none => rw [hp0] at h; cases h; exact ⟨Or.inr rfl, by simp⟩
    | some r1 =>
      rw [hp0] at h
      cases hp1 : pyFloat c1 with
      | none => rw [hp1] at h; cases h; exact ⟨Or.inr rfl, by simp⟩
      | some r2 =>
        rw [hp1] at h
        cases h
        exact ⟨Or.inl rfl, fun _ =>
          ⟨c0 :: r0, c1 :: r1tail, rest, c0, c1, rfl, rfl, rfl, hp0, hp1⟩⟩

end FinanceAgent
namespace FinanceAgent

deriving instance DecidableEq for Except

/-! ## Claim theorems -/

/-- C1 (counterexample): the round-trip fails for the USD formatter.
Formatting the amount 1 gives `"$1.00"`, and `parse_amount` strips the
decimal point as if it were a thousands separator, returning 100 — far
outside any floating-point tolerance of 1. -/
theorem c1_counterexample :
    Currency.parse_amount (.str (Currency.format_usd_amount 1)) = 100 ∧
    Currency.parse_amount (.str (Currency.format_usd_amount 1)) ≠ 1 := by
  constructor
  · decide
  · decide

/-- C1 (amended): `parse_amount` inverts `format_cop_amount` at every
integer (COP-precision) amount, but parsing a formatted USD amount
yields 100 times the amount (shown for cent-exact amounts below $1,000,
where no grouping commas appear). -/
theorem c1_roundtrip_amended :
    (∀ z : ℤ, Currency.parse_amount (.str (Currency.format_cop_amount (z : ℚ))) = (z : ℚ)) ∧
    (∀ c : ℕ, c < 100000 →
      Currency.parse_amount (.str (Currency.format_usd_amount (mkRat c 100)))
        = 100 * mkRat c 100) := by
  refine ⟨cop_roundtrip, fun c hc => ?_⟩
  rw [usd_parse_format_cents c hc, Rat.mkRat_eq_div]
  push_cast
  field_simp

/-- C1 (witness): the amended USD statement applied at $2.50. -/
theorem c1_witness :
    Currency.parse_amount (.str (Currency.format_usd_amount (mkRat 250 100)))
      = 100 * mkRat 250 100 :=
  c1_roundtrip_amended.2 250 (by norm_num)

/-- C2 (code bug): `validate_invoice_info` is not total.  On a record
whose `fecha` holds a number, `datetime.strptime` raises `TypeError`,
which the surrounding `except ValueError` does not catch, so the
validator raises instead of defaulting the date. -/
theorem c2_validate_raises_typeerror :
    Invoice.validate_invoice_info (toCL "12/10/2025")
      ⟨some (.int 0), .none, .none, .none, .none⟩
      = .error .typeError := by
  decide

/-- C3: every movement-ledger amount the posters compute is ≤ 0,
whatever the sign or string form of the record's `montoCOP`: both
variants negate the absolute value of the coerced amount
(`-abs(coerce(montoCOP))`), so a double-negative input cannot produce a
positive movement.  Stated for the per-record amount of both variants
and for whole batches of the numeric-cell variant. -/
theorem c3_movement_amounts_nonpositive :
    (∀ (sub : ExpenseRec) (q : ℚ), Sheets.movement_amount sub = .ok q → q ≤ 0) ∧
    (∀ (sub : ExpenseRec) (q : ℚ), Accounting.monto_valor sub = .ok q → q ≤ 0) ∧
    (∀ (subs : List ExpenseRec) (qs : List ℚ),
      Sheets.movement_amounts subs = .ok qs → ∀ q ∈ qs, q ≤ 0) := by
  have key : ∀ x : ℚ, qNeg (qAbs x) ≤ 0 := fun x => by
    rw [qNeg_eq, qAbs_eq]
    exact neg_nonpos.mpr (abs_nonneg x)
  have h1 : ∀ (sub : ExpenseRec) (q : ℚ), Sheets.movement_amount sub = .ok q → q ≤ 0 := by
    intro sub q h
    rw [Sheets.movement_amount] at h
    cases hx : Sheets.extract_numeric_value (sub.montoCOP.getD (.str (toCL "0"))) with
    | error e => rw [hx] at h; cases h
    | ok x =>
      rw [hx] at h
      injection h with h'
      rw [← h']
      exact key x
  refine ⟨h1, ?_, ?_⟩
  · intro sub q h
    rw [Accounting.monto_valor] at h
    cases hx : Accounting.format_currency (sub.montoCOP.getD (.str (toCL "$0"))) with
    | error e => rw [hx] at h; cases h
    | ok x =>
      rw [hx] at h
      injection h with h'
      rw [← h']
      exact key x
  · intro subs
    induction subs with
    | nil =>
      intro qs h q hq
      rw [Sheets.movement_amounts] at h
      injection h with h'
      rw [← h'] at hq
      cases hq
    | cons s ss ih =>
      intro qs h q hq
      rw [Sheets.movement_amounts] at h
      cases hm : Sheets.movement_amount s with
      | error e => rw [hm] at h; cases h
      | ok q0 =>
        rw [hm] at h
        cases hr : Sheets.movement_amounts ss with
        | error e => rw [hr] at h; cases h
        | ok qs0 =>
          rw [hr] at h
          injection h with h'
          rw [← h'] at hq
          rcases List.mem_cons.mp hq with rfl | hq'
          · exact h1 s q hm
          · exact ih qs0 hr q hq'

/-- C3 (witness): a record with `montoCOP = "$100.000"` produces the
movement amount −100000 ≤ 0. -/
theorem c3_witness : (-100000 : ℚ) ≤ 0 :=
  c3_movement_amounts_nonpositive.1
    ⟨.none, .none, .none, some (.str (toCL "$100.000")), .none⟩
    (-100000) (by decide)

/-- C4: for a non-empty batch the poster's result is exactly the
conjunction of the two ledger appends; a raised collaborator error is
converted to `false` at that append's boundary (the poster itself
returns a boolean, never an exception); and a partial failure — expense
ledger written, movements not — is possible, yielding overall `false`
with the successful write left in place. -/
theorem c4_register_expenses_and :
    ∀ (today : PyDate) (subs : List ExpenseRec) (env : Accounting.PostEnv),
      subs ≠ [] →
      (Accounting.register_expenses today subs env = true ↔
        Accounting.register_in_expenses_sheet today subs env = true ∧
        Accounting.register_in_movements_sheet subs env = true) ∧
      (∀ e, env.expRemote = .error e →
        Accounting.register_in_expenses_sheet today subs env = false) ∧
      (∀ e, env.movRemote = .error e →
        Accounting.register_in_movements_sheet subs env = false) ∧
      (∃ env2 : Accounting.PostEnv,
        Accounting.register_in_expenses_sheet today subs env2 = true ∧
        Accounting.register_expenses today subs env2 = false) := by
  intro today subs env hne
  have hempty : subs.isEmpty = false := by
    cases subs with
    | nil => exact absurd rfl hne
    | cons a l => rfl
  obtain ⟨es, er, ms, mr⟩ := env
  refine ⟨?_, ?_, ?_, ?_⟩
  · simp [Accounting.register_expenses, hempty, Bool.and_eq_true]
  · intro e he
    cases es <;> simp_all [Accounting.register_in_expenses_sheet]
  · intro e he
    cases ms <;>
      cases hma : Accounting.movement_amounts subs <;>
        simp_all [Accounting.register_in_movements_sheet]
  · refine ⟨⟨true, .ok (), false, .ok ()⟩, ?_, ?_⟩
    · simp [Accounting.register_in_expenses_sheet]
    · simp [Accounting.register_expenses, hempty, Accounting.register_in_movements_sheet]

/-- C4 (witness): a healthy environment posts a one-record batch to both
ledgers and reports `true`. -/
theorem c4_witness :
    Accounting.register_expenses ⟨10, 12, 2025⟩
      [⟨.none, .none, .none, .none, .none⟩] ⟨true, .ok (), true, .ok ()⟩ = true :=
  (c4_register_expenses_and ⟨10, 12, 2025⟩ [⟨.none, .none, .none, .none, .none⟩]
    ⟨true, .ok (), true, .ok ()⟩ (by decide)).1.mpr ⟨by decide, by decide⟩

/-- C5 (counterexample): with remote cells `"5000"` / `"abc"`, a single
`load_exchange_rates` call updates `usd_to_cop_rate` to 5000 while
`cop_to_usd_rate` keeps its previous value — precisely the torn partial
update the claim rules out. -/
theorem c5_counterexample :
    (Currency.load_exchange_rates Currency.defaultRates
        (some [[toCL "5000"], [toCL "abc"]])).1.usd_to_cop_rate
      ≠ Currency.defaultRates.usd_to_cop_rate ∧
    (Currency.load_exchange_rates Currency.defaultRates
        (some [[toCL "5000"], [toCL "abc"]])).1.cop_to_usd_rate
      = Currency.defaultRates.cop_to_usd_rate ∧
    (Currency.load_exchange_rates Currency.defaultRates
        (some [[toCL "5000"], [toCL "abc"]])).2 = false := by
  refine ⟨by decide, by decide, by decide⟩

/-- C5 (witness): the amended statement applied at the torn input. -/
theorem c5_witness :
    ((false : Bool) = true ∨
      (Currency.Rates.mk 5000 (mkRat 1 4300)).cop_to_usd_rate
        = Currency.defaultRates.cop_to_usd_rate) ∧
    ((false : Bool) = true →
      ∃ row0 row1 rest c0 c1,
        (some [[toCL "5000"], [toCL "abc"]]
            : Option (List (List (List Char)))) = some (row0 :: row1 :: rest) ∧
        row0.head? = some c0 ∧ row1.head? = some c1 ∧
        pyFloat c0 = some (Currency.Rates.mk 5000 (mkRat 1 4300)).usd_to_cop_rate ∧
        pyFloat c1 = some (Currency.Rates.mk 5000 (mkRat 1 4300)).cop_to_usd_rate) :=
  c5_load_amended Currency.defaultRates (some [[toCL "5000"], [toCL "abc"]])
    ⟨5000, mkRat 1 4300⟩ false (by decide)

/-- C6 (counterexample): a record carrying the invoice-extracted date
`"01/01/2020"`, posted on 2025-10-12, gets `"10/12/2025"` in its
expense-ledger date cell — the posting-time date, not the record's own
date. -/
theorem c6_counterexample :
    (Accounting.expenses_row ⟨10, 12, 2025⟩
        ⟨some (.str (toCL "01/01/2020")), some (.str (toCL "Internet")),
          .none, .none, .none⟩).head?
      = some (.str (toCL "10/12/2025")) ∧
    (⟨some (.str (toCL "01/01/2020")), some (.str (toCL "Internet")),
        .none, .none, .none⟩ : ExpenseRec).fecha
      = some (.str (toCL "01/01/2020")) ∧
    some (PyValue.str (toCL "10/12/2025")) ≠ some (PyValue.str (toCL "01/01/2020")) := by
  refine ⟨by decide, by decide, by decide⟩

/-- C6 (amended): the expense-ledger date cell is always the
posting-time date (`datetime.now()` formatted `MM/DD/YYYY`); the
record's `fecha` field has no influence on the built row. -/
theorem c6_expenses_row_date :
    (∀ (today : PyDate) (subs : List ExpenseRec) (row : List PyValue),
        row ∈ Accounting.expenses_rows today subs →
        row.head? = some (.str (Accounting.format_date_for_accounting today))) ∧
    (∀ (today : PyDate) (sub : ExpenseRec) (f : Option PyValue),
        Accounting.expenses_row today { sub with fecha := f }
          = Accounting.expenses_row today sub) := by
  constructor
  · intro today subs row hr
    rcases List.mem_map.mp hr with ⟨sub, _, rfl⟩
    rfl
  · intro today sub f
    rfl

/-- C6 (witness): the amended statement applied to a singleton batch. -/
theorem c6_witness :
    (Accounting.expenses_row ⟨1, 2, 2025⟩ ⟨.none, .none, .none, .none, .none⟩).head?
      = some (.str (Accounting.format_date_for_accounting ⟨1, 2, 2025⟩)) :=
  c6_expenses_row_date.1 ⟨1, 2, 2025⟩ [⟨.none, .none, .none, .none, .none⟩] _
    (List.mem_singleton.mpr rfl)

/-- C7 (counterexample): on the accepted text `"1,5"` the manual flow's
inline parser yields 15 (comma dropped as a thousands separator) while
the normalizer's `parse_amount` yields 3/2 (comma read as a decimal
point): the two parsing paths are not equivalent.  The flow then stores
`montoCOP = "$15"`. -/
theorem c7_counterexample :
    pyFloat (Bot.montoClean (toCL "1,5")) = some 15 ∧
    Currency.parse_amount (.str (toCL "1,5")) = mkRat 3 2 ∧
    (15 : ℚ) ≠ mkRat 3 2 ∧
    Bot.process_monto
      ⟨Currency.defaultRates, ⟨1, 1, 2025⟩, toCL "01/01/2025",
        ⟨true, .ok (), true, .ok ()⟩, .ok .none⟩
      ⟨.none, .none, some (.str (toCL "COP")), .none, .none, .none⟩
      (toCL "1,5")
      = .ok (⟨.none, .none, some (.str (toCL "COP")),
          some (.str (toCL "$15")), some (.str (toCL "$0.00")), .none⟩,
        .manual .CONFIRMACION) := by
  refine ⟨by decide, by decide, by decide, by decide⟩

/-- C7 (amended): on texts containing no comma, the manual flow's
parsing agrees with `parse_amount` for every accepted input; with a
comma the two diverge. -/
theorem c7_amount_parse_amended :
    ∀ (s : List Char) (v : ℚ), ',' ∉ s →
      pyFloat (Bot.montoClean s) = some v →
      Currency.parse_amount (.str s) = v := by
  intro s v hc h
  show (pyFloat (Currency.parseClean s)).getD 0 = v
  rw [parseClean_eq_montoClean hc h, h]
  rfl

/-- C7 (witness): the amended statement applied at `"$1.000"`. -/
theorem c7_witness : Currency.parse_amount (.str (toCL "$1.000")) = 1000 :=
  c7_amount_parse_amended (toCL "$1.000") 1000 (by decide) (by decide)

/-- C8: from every non-terminal state of both conversational flows, the
`/cancelar` command is dispatched (state handlers reject it, the
fallback accepts it) and `cmd_cancelar` ends the conversation in exactly
one transition, with the session data discarded unchanged. -/
theorem c8_cancel_one_transition :
    (∀ (s : Bot.ManualState) (env : Bot.BotEnv) (ud : Bot.UserData),
        Bot.conv_step (Bot.manual_states s) Bot.conv_fallbacks (.manual s) env ud
          Bot.cancelUpd = .ok (ud, .ended)) ∧
    (∀ (s : Bot.InvoiceState) (env : Bot.BotEnv) (ud : Bot.UserData),
        Bot.conv_step (Bot.invoice_states s) Bot.conv_fallbacks (.invoice s) env ud
          Bot.cancelUpd = .ok (ud, .ended)) := by
  constructor <;> intro s env ud <;> cases s <;> rfl

/-- C9: in the amount-entry state, a text whose cleaned form `float()`
rejects leaves the whole session record untouched and keeps the
conversation in `MONTO` (re-prompt, no attempt counting). -/
theorem c9_parse_failure_stays :
    ∀ (env : Bot.BotEnv) (ud : Bot.UserData) (m : PyValue) (text : List Char),
      ud.moneda_seleccionada = some m →
      pyFloat (Bot.montoClean text) = .none →
      Bot.process_monto env ud text = .ok (ud, .manual .MONTO) := by
  intro env ud m text hm hp
  unfold Bot.process_monto
  rw [hm, hp]

/-- C9 (witness): the statement applied to a mid-flow session and the
text `"not a number"`. -/
theorem c9_witness :
    Bot.process_monto
      ⟨Currency.defaultRates, ⟨1, 1, 2025⟩, toCL "01/01/2025",
        ⟨true, .ok (), true, .ok ()⟩, .ok .none⟩
      ⟨some (.str (toCL "Internet")), some (.str (toCL "Tech")),
        some (.str (toCL "COP")), .none, .none, .none⟩
      (toCL "not a number")
      = .ok (⟨some (.str (toCL "Internet")), some (.str (toCL "Tech")),
          some (.str (toCL "COP")), .none, .none, .none⟩, .manual .MONTO) :=
  c9_parse_failure_stays _ _ _ _ rfl (by decide)

/-- C10 (counterexample): the two monetary-string coercions disagree on
`"1,5"`: `format_currency` deletes the comma and returns 15, while
`extract_numeric_value` turns it into a decimal point and returns 3/2. -/
theorem c10_counterexample :
    Accounting.format_currency (.str (toCL "1,5")) = .ok 15 ∧
    Sheets.extract_numeric_value (.str (toCL "1,5")) = .ok (mkRat 3 2) ∧
    Accounting.format_currency (.str (toCL "1,5"))
      ≠ Sheets.extract_numeric_value (.str (toCL "1,5")) := by
  refine ⟨by decide, by decide, by decide⟩

/-- C10 (amended): the two coercions agree on `int` and `float` inputs
and on comma-free strings whose cleaned form parses as a float; they
diverge on strings with commas, on unparseable strings (`0.0` versus a
raised `ValueError`), and on non-numeric non-strings (a raised
`TypeError` versus `0.0`). -/
theorem c10_coercion_agreement :
    (∀ n : ℤ, Accounting.format_currency (.int n) = Sheets.extract_numeric_value (.int n)) ∧
    (∀ q : ℚ, Accounting.format_currency (.float q) = Sheets.extract_numeric_value (.float q)) ∧
    (∀ (s : List Char) (v : ℚ), ',' ∉ s →
      pyFloat (removeAll '.' (removeAll '$' s)) = some v →
      Accounting.format_currency (.str s) = .ok v ∧
      Sheets.extract_numeric_value (.str s) = .ok v) := by
  refine ⟨fun n => rfl, fun q => rfl, ?_⟩
  intro s v hc h
  have hinner : ',' ∉ removeAll '.' (removeAll '$' s) :=
    fun hm => hc (mem_of_mem_removeAll (mem_of_mem_removeAll hm))
  have hrm : removeAll ',' (removeAll '.' (removeAll '$' s))
      = removeAll '.' (removeAll '$' s) :=
    removeAll_eq_self fun c hcm => by
      simpa using fun hceq : c = ',' => hinner (hceq ▸ hcm)
  have hrp : replaceAll ',' '.' (removeAll '.' (removeAll '$' s))
      = removeAll '.' (removeAll '$' s) :=
    replaceAll_eq_self fun c hcm => by
      simpa using fun hceq : c = ',' => hinner (hceq ▸ hcm)
  constructor
  · show Except.ok ((pyFloat (removeAll ',' (removeAll '.' (removeAll '$' s)))).getD 0)
      = Except.ok (ε := PyErr) v
    rw [hrm, h]
    rfl
  · show (match pyFloat (replaceAll ',' '.' (removeAll '.' (removeAll '$' s))) with
      | Option.some q => Except.ok q
      | Option.none => Except.error PyErr.valueError) = Except.ok v
    rw [hrp, h]

/-- C10 (witness): the amended statement applied at `"$2.500"`. -/
theorem c10_witness :
    Accounting.format_currency (.str (toCL "$2.500")) = .ok 2500 ∧
    Sheets.extract_numeric_value (.str (toCL "$2.500")) = .ok 2500 :=
  c10_coercion_agreement.2.2 (toCL "$2.500") 2500 (by decide) (by decide)

end FinanceAgent
